import Mathlib

/-!
Verification development for the financial-adviser dashboard (`src/app.py`).

The program is Streamlit glue around three external collaborators: a
market-data library (`yfinance`), an LLM agent runtime (`agno`), and the
UI framework itself.  The shallow embedding below models the pure data
flow of the source:

* external fetches and agent calls are oracles, i.e. explicit function
  parameters returning `Except String _` (an `.error` models a raised
  exception caught by the surrounding `try`);
* floating-point prices are modelled as rationals, with the display
  rounding of the f-string formats (`:.2f`, `:+.1f`) made explicit;
* Python dicts are association lists with last-write-wins insertion;
* the Streamlit session state is a record threaded through the handlers.
-/

namespace FinAdviser

/-- One row of the fetched price history.  The source reads only the
index (modelled as `date`), the `Close` column and the `Volume` column
of the OHLCV frame, so only those fields are modelled. -/
structure HistRow where
  date : Nat
  close : ℚ
  volume : ℚ
  deriving DecidableEq, Inhabited, Repr

/-- The successful payload of one `yf.Ticker(symbol)` interaction:
`ticker.history(period=period)` and `ticker.info` (app.py lines 92-94). -/
structure FetchOk where
  history : List HistRow
  info : List (String × String)
  deriving DecidableEq, Inhabited, Repr

/-- A per-symbol fetch oracle: `.ok` is a completed fetch, `.error e`
models any exception raised while fetching that symbol. -/
def FetchOracle : Type := String → Except String FetchOk

/-- The per-symbol value stored by `get_stock_data` (app.py lines 95-99):
history, info, and `current_price = hist[Close].iloc[-1] if not
hist.empty else None`. -/
structure StockSnapshot where
  history : List HistRow
  info : List (String × String)
  current_price : Option ℚ
  deriving DecidableEq, Inhabited, Repr

/-- Builds the dict entry of app.py lines 95-99 from a completed fetch. -/
def mkSnapshot (r : FetchOk) : StockSnapshot :=
  { history := r.history
    info := r.info
    current_price := r.history.getLast?.map (fun row => row.close) }

/-- The warning emitted at app.py line 101:
`st.warning(f"Could not fetch data for {symbol}: {e}")`. -/
def warnMsg (symbol e : String) : String :=
  "Could not fetch data for " ++ symbol ++ ": " ++ e

/-- Python dict assignment `data[symbol] = v`: replaces the value in
place when the key is present, appends otherwise. -/
def dictInsert (m : List (String × StockSnapshot)) (k : String)
    (v : StockSnapshot) : List (String × StockSnapshot) :=
  if m.any (fun p => p.1 = k) then
    m.map (fun p => if p.1 = k then (k, v) else p)
  else
    m ++ [(k, v)]

/-- The body of the `for symbol in symbols` loop of `get_stock_data`
(app.py lines 90-101), threading the dict and the emitted warnings. -/
def fetchLoop (fetch : FetchOracle) :
    List (String × StockSnapshot) × List String → List String →
    List (String × StockSnapshot) × List String
  | acc, [] => acc
  | acc, symbol :: rest =>
    match fetch symbol with
    | .ok r => fetchLoop fetch (dictInsert acc.1 symbol (mkSnapshot r), acc.2) rest
    | .error e => fetchLoop fetch (acc.1, acc.2 ++ [warnMsg symbol e]) rest

/-- The function `get_stock_data(symbols, period)` (app.py lines 87-102):
returns the
symbol → snapshot mapping together with the list of warnings shown.
The lookback period only parameterises the fetch oracle, so it is
absorbed into `fetch`. -/
def get_stock_data (fetch : FetchOracle) (symbols : List String) :
    List (String × StockSnapshot) × List String :=
  fetchLoop fetch ([], []) symbols

/-- One plotly trace: the `name`, x-values and y-values the source
passes to `go.Scatter` or `go.Bar`. -/
structure Series where
  name : String
  xs : List Nat
  ys : List ℚ
  deriving DecidableEq, Repr

/-- Python slice `xs[-n:]`: the last `n` elements, or all of them when
fewer than `n` exist. -/
def lastN {α : Type} (n : Nat) (xs : List α) : List α :=
  xs.drop (xs.length - n)

/-- The function `create_price_chart(stock_data)` (app.py lines 104-127):
one line
trace per symbol with non-empty history, plotting the full Close
series; empty-history symbols add no trace. -/
def create_price_chart (stock_data : List (String × StockSnapshot)) :
    List Series :=
  stock_data.foldl
    (fun fig p =>
      if p.2.history.isEmpty then fig
      else
        fig ++ [{ name := p.1
                  xs := p.2.history.map (fun row => row.date)
                  ys := p.2.history.map (fun row => row.close) }])
    []

/-- The function `create_volume_chart(stock_data)` (app.py lines 129-150):
one bar
trace per symbol with non-empty history, over `index[-30:]` and
`Volume[-30:]`. -/
def create_volume_chart (stock_data : List (String × StockSnapshot)) :
    List Series :=
  stock_data.foldl
    (fun fig p =>
      if p.2.history.isEmpty then fig
      else
        fig ++ [{ name := p.1
                  xs := lastN 30 (p.2.history.map (fun row => row.date))
                  ys := lastN 30 (p.2.history.map (fun row => row.volume)) }])
    []

/-- Rounding to `d` decimal digits, as performed by the display formats
`:.2f` and `:+.1f` when the value is rendered. -/
def roundDisp (d : Nat) (x : ℚ) : ℚ :=
  (round (x * (10 : ℚ) ^ d) : ℤ) / (10 : ℚ) ^ d

/-- The metric card produced by `st.metric` (app.py lines 246-255):
the rounded price, and optionally the rounded day-over-day change and
percentage shown in the delta string. -/
structure MetricCard where
  label : String
  value : ℚ
  delta : Option (ℚ × ℚ)
  deriving DecidableEq, Repr

/-- The per-symbol metric rendering of app.py lines 238-255.  The card
is rendered only under `if data[current_price]:` — Python truthiness,
so `None` and `0.0` both skip it.  Inside, `iloc[-2]` raises when the
history has fewer than two points; the bare `except` then renders the
price-only form. -/
def renderMetric (symbol : String) (data : StockSnapshot) : Option MetricCard :=
  match data.current_price with
  | none => none
  | some current =>
    if current = 0 then none
    else if 2 ≤ data.history.length then
      let prev_close := (data.history.getD (data.history.length - 2) default).close
      let change := current - prev_close
      let change_pct := change / prev_close * 100
      some { label := symbol
             value := roundDisp 2 current
             delta := some (roundDisp 2 change, roundDisp 1 change_pct) }
    else
      some { label := symbol
             value := roundDisp 2 current
             delta := none }

/-- The list `default_stocks` (app.py line 175). -/
def default_stocks : List String := ["AAPL", "TSLA", "GOOGL"]

/-- Python `s.split(",")`, written on the character list: splits at
every comma, keeps empty pieces, and yields one piece even for the
empty string. -/
def splitCommaAux : List Char → List Char → List String
  | [], cur => [String.mk cur.reverse]
  | c :: rest, cur =>
    if c = ',' then String.mk cur.reverse :: splitCommaAux rest []
    else splitCommaAux rest (c :: cur)

/-- Python `custom_stocks.split(",")` (app.py line 201). -/
def pySplitComma (s : String) : List String := splitCommaAux s.data []

/-- Python `s.strip()`: removes leading and trailing whitespace. -/
def pyStrip (s : String) : String :=
  String.mk (((s.data.dropWhile Char.isWhitespace).reverse.dropWhile
    Char.isWhitespace).reverse)

/-- Python `s.upper()`; ticker symbols are ASCII, so ASCII uppercasing
suffices. -/
def pyUpper (s : String) : String := String.mk (s.data.map Char.toUpper)

/-- The ticker-selection logic of app.py lines 188-205: the free-text
override (split on commas, each entry stripped and uppercased) replaces
the multiselect when the text is non-empty (Python string truthiness),
and an empty final selection falls back to `default_stocks`. -/
def select_tickers (multiselect : List String) (custom_stocks : String) :
    List String :=
  let selected :=
    if custom_stocks ≠ "" then
      (pySplitComma custom_stocks).map (fun s => pyUpper (pyStrip s))
    else multiselect
  if selected = [] then default_stocks else selected

/-- The four analysis modes of the radio control (app.py lines 211-214). -/
inductive AnalysisMode where
  | quickComparison
  | detailedAnalysis
  | riskAssessment
  | customQuery
  deriving DecidableEq, Repr

/-- The prompt construction of app.py lines 286-314: one fixed f-string
template per mode, with the comma-joined ticker list interpolated; the
Custom Query template appends the free text verbatim. -/
def composeQuery (mode : AnalysisMode) (stocks : List String)
    (custom_query : String) : String :=
  let joined := String.intercalate ", " stocks
  match mode with
  | .quickComparison =>
    "\n                    Provide a quick comparison of " ++ joined ++
    " stocks including:\n                    - Current prices and recent performance\n                    - Key financial metrics\n                    - Brief analyst recommendations\n                    Use tables for clear data presentation.\n                    "
  | .detailedAnalysis =>
    "\n                    Perform a comprehensive analysis of " ++ joined ++
    " including:\n                    - Current stock prices and performance metrics\n                    - Company financial health and ratios\n                    - Analyst recommendations and price targets\n                    - Recent company news and developments\n                    - Investment risks and opportunities\n                    Present findings in well-structured tables and provide detailed reasoning.\n                    "
  | .riskAssessment =>
    "\n                    Conduct a risk assessment for " ++ joined ++
    " focusing on:\n                    - Volatility and price stability\n                    - Company-specific risks\n                    - Market and sector risks\n                    - Financial stability indicators\n                    Provide risk ratings and mitigation strategies.\n                    "
  | .customQuery =>
    "Analyze " ++ joined ++ " stocks: " ++ custom_query

/-- The agent response object: the source reads `response.content`. -/
structure AgentResponse where
  content : String
  deriving DecidableEq, Repr

/-- An initialized agent handle: `agent.run(query)` either returns a
response or raises (modelled as `.error`). -/
structure AgentHandle where
  run : String → Except String AgentResponse

/-- One history entry appended at app.py lines 330-336.  The source
stores the duration as the string of `f"{end_time - start_time:.2f}s"`;
the rounded number of seconds is modelled. -/
structure AnalysisRecord where
  timestamp : String
  stocks : List String
  query : String
  response : String
  duration : ℚ
  deriving DecidableEq, Repr

/-- The Streamlit session state the app reads and writes
(app.py lines 50-53): the optional agent handle and the analysis
history list. -/
structure SessionState where
  agent : Option AgentHandle
  analysis_history : List AnalysisRecord

/-- What the analysis section displays after the handler runs. -/
inductive RunDisplay where
  | warnNoAgent
  | idle
  | results (content : String) (seconds : ℚ)
  | failure (err : String)
  deriving DecidableEq, Repr

/-- The observable outcome of one render of the AI-analysis section. -/
structure RunRender where
  state : SessionState
  display : RunDisplay
  buttonShown : Bool
  buttonDisabled : Bool
  invoked : Option String

/-- The AI-analysis section of app.py lines 279-342.  With no agent in
session state only the warning renders (no button).  Otherwise the Run
Analysis button is rendered with `disabled=not selected_stocks`; a
disabled button cannot fire, so an effective press requires both
`pressed` and a non-empty selection.  On a press the prompt is composed,
the agent is invoked, and on success exactly one record is appended;
on failure the state is left untouched and an error is displayed.
`start_time` and `end_time` are the two `time.time()` readings. -/
def analysisSection (state : SessionState) (selected_stocks : List String)
    (mode : AnalysisMode) (custom_query : String) (pressed : Bool)
    (timestamp : String) (start_time end_time : ℚ) : RunRender :=
  match state.agent with
  | none =>
    { state := state, display := .warnNoAgent
      buttonShown := false, buttonDisabled := true, invoked := none }
  | some agent =>
    let disabled := selected_stocks.isEmpty
    if pressed && !disabled then
      if selected_stocks ≠ [] then
        let query := composeQuery mode selected_stocks custom_query
        match agent.run query with
        | .ok response =>
          let record : AnalysisRecord :=
            { timestamp := timestamp
              stocks := selected_stocks
              query := query
              response := response.content
              duration := roundDisp 2 (end_time - start_time) }
          { state := { agent := some agent
                       analysis_history := state.analysis_history ++ [record] }
            display := .results response.content (roundDisp 2 (end_time - start_time))
            buttonShown := true, buttonDisabled := disabled
            invoked := some query }
        | .error e =>
          { state := state, display := .failure e
            buttonShown := true, buttonDisabled := disabled
            invoked := some query }
      else
        { state := state, display := .idle
          buttonShown := true, buttonDisabled := disabled, invoked := none }
    else
      { state := state, display := .idle
        buttonShown := true, buttonDisabled := disabled, invoked := none }

/-- The Initialize button handler (app.py lines 163-169):
`st.session_state.agent = create_agent()` assigns the factory result
unconditionally; `create_agent` returns `None` on failure. -/
def initializeAgent (factory_result : Option AgentHandle)
    (state : SessionState) : SessionState :=
  { state with agent := factory_result }

/-! ### Concrete fixtures used to evaluate the development on closed inputs -/

/-- A fetch oracle where AAPL succeeds with a two-point history and any
other symbol raises. -/
def fetchEx : FetchOracle := fun s =>
  if s = "AAPL" then
    .ok { history := [{ date := 0, close := 10, volume := 100 },
                      { date := 1, close := 12, volume := 120 }]
          info := [("longName", "Apple Inc.")] }
  else .error "symbol not found"

/-- A fetch oracle where every symbol raises. -/
def fetchFailEx : FetchOracle := fun _ => .error "network down"

/-- A fetch oracle where every fetch completes but returns an empty
history (the empty-result case). -/
def fetchEmptyEx : FetchOracle := fun _ => .ok { history := [], info := [] }

/-- An agent whose run always succeeds with a fixed response. -/
def okAgentEx : AgentHandle := ⟨fun _ => .ok { content := "analysis text" }⟩

/-- An agent whose run always raises. -/
def errAgentEx : AgentHandle := ⟨fun _ => .error "quota exceeded"⟩

/-- A snapshot with a two-point history, as fetched for AAPL by
`fetchEx`: current price 12, previous close 10. -/
def snapTwoEx : StockSnapshot :=
  mkSnapshot { history := [{ date := 0, close := 10, volume := 100 },
                           { date := 1, close := 12, volume := 120 }]
               info := [("longName", "Apple Inc.")] }

/-- A snapshot whose single history point closes at exactly 0, so its
current price is `some 0` — falsy in Python. -/
def snapZeroEx : StockSnapshot :=
  mkSnapshot { history := [{ date := 0, close := 0, volume := 100 }], info := [] }

/-- The render of the analysis section in Custom Query mode with an
empty free-text query, a working agent, and the button pressed. -/
def customEmptyRunEx : RunRender :=
  analysisSection { agent := some okAgentEx, analysis_history := [] }
    ["AAPL"] .customQuery "" true "2026-10-12 00:00:00" 0 1

/-! ## Helper lemmas about the fetch loop -/

theorem dictInsert_mem (m : List (String × StockSnapshot)) (k : String)
    (v : StockSnapshot) :
    ∀ kv ∈ dictInsert m k v, kv ∈ m ∨ kv = (k, v) := by
  intro kv hkv
  unfold dictInsert at hkv
  split at hkv
  · rcases List.mem_map.mp hkv with ⟨p, hp, hpe⟩
    by_cases hk : p.1 = k
    · right
      rw [← hpe]
      simp [hk]
    · left
      rw [← hpe]
      simpa [hk] using hp
  · rcases List.mem_append.mp hkv with h | h
    · exact Or.inl h
    · right; simpa using h

theorem dictInsert_self_mem_keys (m : List (String × StockSnapshot))
    (k : String) (v : StockSnapshot) :
    k ∈ (dictInsert m k v).map Prod.fst := by
  unfold dictInsert
  split
  · rename_i hany
    rcases List.any_eq_true.mp hany with ⟨p, hp, hpk⟩
    apply List.mem_map.mpr
    refine ⟨(k, v), ?_, rfl⟩
    apply List.mem_map.mpr
    refine ⟨p, hp, ?_⟩
    simp only [decide_eq_true_eq] at hpk
    simp [hpk]
  · simp

theorem dictInsert_keys_mono (m : List (String × StockSnapshot))
    (k : String) (v : StockSnapshot) (k2 : String)
    (h : k2 ∈ m.map Prod.fst) :
    k2 ∈ (dictInsert m k v).map Prod.fst := by
  rcases List.mem_map.mp h with ⟨p, hp, hpk⟩
  by_cases hk : p.1 = k
  · subst hpk; rw [hk]; exact dictInsert_self_mem_keys m k v
  · unfold dictInsert
    split
    · apply List.mem_map.mpr
      refine ⟨p, ?_, hpk⟩
      apply List.mem_map.mpr
      exact ⟨p, hp, by simp [hk]⟩
    · exact List.mem_map.mpr ⟨p, List.mem_append_left _ hp, hpk⟩

theorem fetchLoop_warn_mono (fetch : FetchOracle) (l : List String) :
    ∀ (acc : List (String × StockSnapshot) × List String) (w : String),
      w ∈ acc.2 → w ∈ (fetchLoop fetch acc l).2 := by
  induction l with
  | nil => intro acc w h; simpa [fetchLoop] using h
  | cons s rest ih =>
    intro acc w h
    cases hfs : fetch s with
    | ok r => simp only [fetchLoop, hfs]; exact ih _ w h
    | error e =>
      simp only [fetchLoop, hfs]
      exact ih _ w (List.mem_append_left _ h)

theorem fetchLoop_keys_mono (fetch : FetchOracle) (l : List String) :
    ∀ (acc : List (String × StockSnapshot) × List String) (k : String),
      k ∈ acc.1.map Prod.fst → k ∈ (fetchLoop fetch acc l).1.map Prod.fst := by
  induction l with
  | nil => intro acc k h; simpa [fetchLoop] using h
  | cons s rest ih =>
    intro acc k h
    cases hfs : fetch s with
    | ok r =>
      simp only [fetchLoop, hfs]
      exact ih _ k (dictInsert_keys_mono _ _ _ _ h)
    | error e => simp only [fetchLoop, hfs]; exact ih _ k h

theorem fetchLoop_keys_subset (fetch : FetchOracle) (l : List String) :
    ∀ (acc : List (String × StockSnapshot) × List String) (k : String),
      k ∈ (fetchLoop fetch acc l).1.map Prod.fst →
      k ∈ acc.1.map Prod.fst ∨ k ∈ l := by
  induction l with
  | nil => intro acc k h; exact Or.inl (by simpa [fetchLoop] using h)
  | cons s rest ih =>
    intro acc k h
    cases hfs : fetch s with
    | ok r =>
      simp only [fetchLoop, hfs] at h
      rcases ih _ k h with h2 | h2
      · rcases List.mem_map.mp h2 with ⟨p, hp, hpk⟩
        rcases dictInsert_mem _ _ _ p hp with hmem | hself
        · exact Or.inl (List.mem_map.mpr ⟨p, hmem, hpk⟩)
        · right; subst hself; simp [← hpk]
      · exact Or.inr (List.mem_cons_of_mem _ h2)
    | error e =>
      simp only [fetchLoop, hfs] at h
      rcases ih _ k h with h2 | h2
      · exact Or.inl h2
      · exact Or.inr (List.mem_cons_of_mem _ h2)

theorem fetchLoop_warn_of_error (fetch : FetchOracle) (l : List String) :
    ∀ (acc : List (String × StockSnapshot) × List String) (s e : String),
      s ∈ l → fetch s = .error e →
      warnMsg s e ∈ (fetchLoop fetch acc l).2 := by
  induction l with
  | nil => intro acc s e h; exact absurd h (List.not_mem_nil s)
  | cons t rest ih =>
    intro acc s e hmem herr
    rcases List.mem_cons.mp hmem with heq | htail
    · subst heq
      rw [fetchLoop, herr]
      exact fetchLoop_warn_mono fetch rest _ _ (List.mem_append_right _ (by simp))
    · cases hfs : fetch t with
      | ok r => simp only [fetchLoop, hfs]; exact ih _ s e htail herr
      | error e2 => simp only [fetchLoop, hfs]; exact ih _ s e htail herr

theorem fetchLoop_keys_of_ok (fetch : FetchOracle) (l : List String) :
    ∀ (acc : List (String × StockSnapshot) × List String) (s : String)
      (r : FetchOk), s ∈ l → fetch s = .ok r →
      s ∈ (fetchLoop fetch acc l).1.map Prod.fst := by
  induction l with
  | nil => intro acc s r h; exact absurd h (List.not_mem_nil s)
  | cons t rest ih =>
    intro acc s r hmem hok
    rcases List.mem_cons.mp hmem with heq | htail
    · subst heq
      rw [fetchLoop, hok]
      exact fetchLoop_keys_mono fetch rest _ s (dictInsert_self_mem_keys _ _ _)
    · cases hfs : fetch t with
      | ok r2 => simp only [fetchLoop, hfs]; exact ih _ s r htail hok
      | error e => simp only [fetchLoop, hfs]; exact ih _ s r htail hok

theorem fetchLoop_vals (fetch : FetchOracle) (l : List String) :
    ∀ (acc : List (String × StockSnapshot) × List String),
      (∀ kv ∈ acc.1, ∃ r, fetch kv.1 = .ok r ∧ kv.2 = mkSnapshot r) →
      ∀ kv ∈ (fetchLoop fetch acc l).1,
        ∃ r, fetch kv.1 = .ok r ∧ kv.2 = mkSnapshot r := by
  induction l with
  | nil => intro acc hacc kv hkv; exact hacc kv (by simpa [fetchLoop] using hkv)
  | cons s rest ih =>
    intro acc hacc kv hkv
    cases hfs : fetch s with
    | ok r =>
      simp only [fetchLoop, hfs] at hkv
      refine ih _ ?_ kv hkv
      intro kv2 hkv2
      rcases dictInsert_mem _ _ _ kv2 hkv2 with hmem | hself
      · exact hacc kv2 hmem
      · subst hself; exact ⟨r, hfs, rfl⟩
    | error e =>
      simp only [fetchLoop, hfs] at hkv
      exact ih (acc.1, acc.2 ++ [warnMsg s e]) hacc kv hkv

theorem fetchLoop_all_fail (fetch : FetchOracle) (l : List String) :
    ∀ (acc : List (String × StockSnapshot) × List String),
      (∀ s ∈ l, ∃ e, fetch s = .error e) →
      (fetchLoop fetch acc l).1 = acc.1 := by
  induction l with
  | nil => intro acc _; rfl
  | cons s rest ih =>
    intro acc hall
    rcases hall s (by simp) with ⟨e, he⟩
    rw [fetchLoop, he]
    exact ih _ (fun t ht => hall t (List.mem_cons_of_mem _ ht))

/-! ## Claim theorems -/

/-- C1: for every ticker list and fetch behaviour, `get_stock_data`
returns a mapping whose key set is a subset of the requested symbols;
each per-symbol failure yields a warning naming the symbol while the
remaining successful symbols still appear in the mapping; and when
every symbol fails the mapping is empty.  The function is total, so it
never propagates an exception. -/
theorem get_stock_data_spec (fetch : FetchOracle) (symbols : List String) :
    (∀ k ∈ (get_stock_data fetch symbols).1.map Prod.fst, k ∈ symbols)
    ∧ (∀ s ∈ symbols, ∀ e, fetch s = .error e →
        warnMsg s e ∈ (get_stock_data fetch symbols).2
        ∧ ∃ pre post, warnMsg s e = pre ++ s ++ post)
    ∧ (∀ s ∈ symbols, ∀ r, fetch s = .ok r →
        s ∈ (get_stock_data fetch symbols).1.map Prod.fst)
    ∧ ((∀ s ∈ symbols, ∃ e, fetch s = .error e) →
        (get_stock_data fetch symbols).1 = []) := by
  refine ⟨?_, ?_, ?_, ?_⟩
  · intro k hk
    rcases fetchLoop_keys_subset fetch symbols ([], []) k hk with h | h
    · simp at h
    · exact h
  · intro s hs e he
    refine ⟨fetchLoop_warn_of_error fetch symbols ([], []) s e hs he, ?_⟩
    exact ⟨"Could not fetch data for ", ": " ++ e,
      by simp [warnMsg, String.append_assoc]⟩
  · intro s hs r hr
    exact fetchLoop_keys_of_ok fetch symbols ([], []) s r hs hr
  · intro hall
    exact fetchLoop_all_fail fetch symbols ([], []) hall

/-- C1 witness: evaluated on the concrete oracle `fetchEx` with ticker
list [AAPL, BADSYM] — AAPL appears in the mapping, the BADSYM warning
is emitted, and with the all-failing oracle the mapping is empty. -/
theorem get_stock_data_spec_witness :
    ("AAPL" ∈ (get_stock_data fetchEx ["AAPL", "BADSYM"]).1.map Prod.fst)
    ∧ (warnMsg "BADSYM" "symbol not found"
        ∈ (get_stock_data fetchEx ["AAPL", "BADSYM"]).2)
    ∧ (get_stock_data fetchFailEx ["AAPL", "TSLA"]).1 = [] := by
  refine ⟨?_, ?_, ?_⟩
  · exact (get_stock_data_spec fetchEx ["AAPL", "BADSYM"]).2.2.1 "AAPL"
      (by decide) { history := [{ date := 0, close := 10, volume := 100 },
                                { date := 1, close := 12, volume := 120 }]
                    info := [("longName", "Apple Inc.")] } rfl
  · exact ((get_stock_data_spec fetchEx ["AAPL", "BADSYM"]).2.1 "BADSYM"
      (by decide) "symbol not found" rfl).1
  · exact (get_stock_data_spec fetchFailEx ["AAPL", "TSLA"]).2.2.2
      (fun s _ => ⟨"network down", rfl⟩)

/-- C4 counterexample: a symbol whose fetch completes with an empty
history is not omitted — with the oracle that returns empty histories,
AAPL is a key of the result mapping. -/
theorem empty_history_not_omitted :
    fetchEmptyEx "AAPL" = .ok { history := [], info := [] }
    ∧ (get_stock_data fetchEmptyEx ["AAPL"]).1.map Prod.fst = ["AAPL"] :=
  ⟨rfl, rfl⟩

/-- C4 amended: a symbol whose fetch completes with an empty history is
included in the result mapping, with `current_price` absent; only
symbols whose fetch raises are omitted. -/
theorem empty_history_included (fetch : FetchOracle) (symbols : List String)
    (s : String) (r : FetchOk) (hs : s ∈ symbols) (hr : fetch s = .ok r)
    (hemp : r.history = []) :
    ∃ kv ∈ (get_stock_data fetch symbols).1,
      kv.1 = s ∧ kv.2.current_price = none := by
  have hk := fetchLoop_keys_of_ok fetch symbols ([], []) s r hs hr
  rcases List.mem_map.mp hk with ⟨kv, hkv, hkvs⟩
  refine ⟨kv, hkv, hkvs, ?_⟩
  have hv := fetchLoop_vals fetch symbols ([], []) (by intro kv2 h; simp at h) kv hkv
  rcases hv with ⟨r2, hr2, hsnap⟩
  rw [hkvs] at hr2
  rw [hr] at hr2
  have : r = r2 := by injection hr2
  subst this
  rw [hsnap]
  simp [mkSnapshot, hemp]

/-- C4 amended witness: evaluated on the empty-history oracle with
ticker list [AAPL]. -/
theorem empty_history_included_witness :
    ∃ kv ∈ (get_stock_data fetchEmptyEx ["AAPL"]).1,
      kv.1 = "AAPL" ∧ kv.2.current_price = none :=
  empty_history_included fetchEmptyEx ["AAPL"] "AAPL"
    { history := [], info := [] } (by decide) rfl rfl

/-- Rounding to display precision is the identity on integer values. -/
theorem roundDisp_int (d : Nat) (n : ℤ) : roundDisp d (n : ℚ) = n := by
  unfold roundDisp
  have h : ((n : ℚ) * (10 : ℚ) ^ d) = ((n * 10 ^ d : ℤ) : ℚ) := by
    push_cast
    ring
  have h10 : ((10 : ℚ) ^ d) ≠ 0 := by positivity
  rw [h, round_intCast]
  push_cast
  rw [mul_div_assoc, div_self h10, mul_one]

theorem foldl_traces (f : String × StockSnapshot → Series) :
    ∀ (d : List (String × StockSnapshot)) (acc : List Series),
      d.foldl (fun fig p => if p.2.history.isEmpty then fig else fig ++ [f p]) acc
        = acc ++ (d.filter (fun p => !p.2.history.isEmpty)).map f := by
  intro d
  induction d with
  | nil => intro acc; simp
  | cons p rest ih =>
    intro acc
    rw [List.foldl_cons, List.filter_cons]
    cases h : p.2.history.isEmpty with
    | true =>
      simp only [List.isEmpty_eq_true] at ih
      simp [ih]
    | false =>
      simp only [List.isEmpty_eq_true] at ih
      simp [ih]

theorem lastN_length_le {α : Type} (n : Nat) (xs : List α) :
    (lastN n xs).length ≤ n := by
  unfold lastN
  rw [List.length_drop]
  omega

/-- C6: each chart contains exactly one trace per symbol with non-empty
history (in mapping order) and none for empty-history symbols; the
price trace plots the full Close series, the volume trace plots
exactly the `[-30:]` slice of the index and Volume series, so every
volume trace has at most 30 points regardless of history length. -/
theorem charts_spec (stock_data : List (String × StockSnapshot)) :
    create_price_chart stock_data
      = (stock_data.filter (fun p => !p.2.history.isEmpty)).map
          (fun p => { name := p.1
                      xs := p.2.history.map (fun row => row.date)
                      ys := p.2.history.map (fun row => row.close) })
    ∧ create_volume_chart stock_data
      = (stock_data.filter (fun p => !p.2.history.isEmpty)).map
          (fun p => { name := p.1
                      xs := lastN 30 (p.2.history.map (fun row => row.date))
                      ys := lastN 30 (p.2.history.map (fun row => row.volume)) })
    ∧ (create_price_chart stock_data).map Series.name
        = (stock_data.filter (fun p => !p.2.history.isEmpty)).map Prod.fst
    ∧ (create_volume_chart stock_data).map Series.name
        = (stock_data.filter (fun p => !p.2.history.isEmpty)).map Prod.fst
    ∧ (∀ t ∈ create_volume_chart stock_data,
         t.xs.length ≤ 30 ∧ t.ys.length ≤ 30) := by
  have hp : create_price_chart stock_data
      = (stock_data.filter (fun p => !p.2.history.isEmpty)).map
          (fun p => { name := p.1
                      xs := p.2.history.map (fun row => row.date)
                      ys := p.2.history.map (fun row => row.close) }) := by
    unfold create_price_chart
    rw [foldl_traces]
    simp
  have hv : create_volume_chart stock_data
      = (stock_data.filter (fun p => !p.2.history.isEmpty)).map
          (fun p => { name := p.1
                      xs := lastN 30 (p.2.history.map (fun row => row.date))
                      ys := lastN 30 (p.2.history.map (fun row => row.volume)) }) := by
    unfold create_volume_chart
    rw [foldl_traces]
    simp
  refine ⟨hp, hv, by rw [hp]; simp, by rw [hv]; simp, ?_⟩
  intro t ht
  rw [hv] at ht
  rcases List.mem_map.mp ht with ⟨p, _, hpe⟩
  rw [← hpe]
  exact ⟨lastN_length_le 30 _, lastN_length_le 30 _⟩

/-- C6 witness: evaluated on a concrete mapping holding one symbol with
a 2-point history and one with an empty history — one trace each, and
the volume bound holds for the produced trace. -/
theorem charts_spec_witness :
    (create_price_chart [("AAPL", snapTwoEx),
        ("EMPTY", mkSnapshot { history := [], info := [] })]).map Series.name
      = ["AAPL"]
    ∧ (∀ t ∈ create_volume_chart [("AAPL", snapTwoEx),
        ("EMPTY", mkSnapshot { history := [], info := [] })],
        t.xs.length ≤ 30 ∧ t.ys.length ≤ 30) := by
  constructor
  · rw [(charts_spec [("AAPL", snapTwoEx),
      ("EMPTY", mkSnapshot { history := [], info := [] })]).2.2.1]
    decide
  · exact (charts_spec [("AAPL", snapTwoEx),
      ("EMPTY", mkSnapshot { history := [], info := [] })]).2.2.2.2

/-- C5 counterexample: `snapZeroEx` has one history point — fewer than
two — yet nothing is rendered (not even the price-only card), because
its current price 0 is falsy under the `if data[current_price]:`
guard. -/
theorem metric_card_price_only_fails :
    snapZeroEx.history.length < 2
    ∧ snapZeroEx.current_price = some 0
    ∧ renderMetric "AAPL" snapZeroEx = none := by
  refine ⟨by decide, by decide, by decide⟩

/-- C5 amended: when a metric card is rendered at all (current price
present and non-zero): with fewer than two history points only the
price appears with no change figure, and with two or more points the
delta is current minus previous close rounded to 2 decimals and the
percentage is delta over previous close times 100 rounded to 1
decimal, as in the `:+.2f` and `:+.1f` display formats. -/
theorem metric_card_spec (symbol : String) (data : StockSnapshot)
    (current : ℚ) (hc : data.current_price = some current)
    (hnz : current ≠ 0) :
    (data.history.length < 2 →
      renderMetric symbol data
        = some { label := symbol, value := roundDisp 2 current, delta := none })
    ∧ (2 ≤ data.history.length →
      renderMetric symbol data
        = some { label := symbol
                 value := roundDisp 2 current
                 delta := some
                   (roundDisp 2 (current -
                      (data.history.getD (data.history.length - 2) default).close),
                    roundDisp 1 ((current -
                      (data.history.getD (data.history.length - 2) default).close) /
                      (data.history.getD (data.history.length - 2) default).close
                      * 100)) }) := by
  constructor
  · intro hlt
    simp only [renderMetric, hc]
    rw [if_neg hnz, if_neg (by omega)]
  · intro hge
    simp only [renderMetric, hc]
    rw [if_neg hnz, if_pos hge]

/-- C5 amended witness: for a two-point history closing at 10 then 12,
the card shows price 12 with delta +2.00 and +20.0 percent. -/
theorem metric_card_spec_witness :
    renderMetric "AAPL" snapTwoEx
      = some { label := "AAPL", value := 12, delta := some (2, 20) } := by
  have h := (metric_card_spec "AAPL" snapTwoEx 12 (by decide) (by decide)).2
    (by decide)
  rw [h, show (snapTwoEx.history.getD (snapTwoEx.history.length - 2) default).close
        = (10 : ℚ) from rfl,
      show (12 : ℚ) - 10 = 2 by norm_num,
      show ((2 : ℚ)) / 10 * 100 = 20 by norm_num,
      show roundDisp 2 (12 : ℚ) = 12 by simpa using roundDisp_int 2 12,
      show roundDisp 2 (2 : ℚ) = 2 by simpa using roundDisp_int 2 2,
      show roundDisp 1 (20 : ℚ) = 20 by simpa using roundDisp_int 1 20]

/-- C10: the metric card is gated on Python truthiness of the current
price: a last close of exactly 0 renders no card at all, an absent
current price renders no card, and an empty history produces an absent
current price. -/
theorem metric_truthiness_gate (symbol : String) (data : StockSnapshot)
    (info : List (String × String)) :
    (data.current_price = some 0 → renderMetric symbol data = none)
    ∧ (data.current_price = none → renderMetric symbol data = none)
    ∧ (mkSnapshot { history := [], info := info }).current_price = none := by
  refine ⟨?_, ?_, rfl⟩
  · intro h
    simp [renderMetric, h]
  · intro h
    simp [renderMetric, h]

/-- C10 witness: evaluated on the zero-close snapshot and on a snapshot
built from an empty history. -/
theorem metric_truthiness_gate_witness :
    renderMetric "TSLA" snapZeroEx = none
    ∧ renderMetric "TSLA" (mkSnapshot { history := [], info := [] }) = none := by
  constructor
  · exact (metric_truthiness_gate "TSLA" snapZeroEx []).1 (by decide)
  · exact (metric_truthiness_gate "TSLA"
      (mkSnapshot { history := [], info := [] }) []).2.1 (by decide)

/-- C2: the analysis run is atomic with respect to history.  When the
agent call raises, the failure is displayed and the history list is
exactly unchanged; when it succeeds, exactly one record is appended,
holding the ticker list, the composed prompt, the response text and
the measured duration. -/
theorem analysis_run_atomic (agent : AgentHandle)
    (history : List AnalysisRecord) (stocks : List String)
    (mode : AnalysisMode) (custom_query timestamp : String) (t0 t1 : ℚ)
    (hs : stocks ≠ []) :
    (∀ e, agent.run (composeQuery mode stocks custom_query) = .error e →
      (analysisSection { agent := some agent, analysis_history := history }
          stocks mode custom_query true timestamp t0 t1).state.analysis_history
        = history
      ∧ (analysisSection { agent := some agent, analysis_history := history }
          stocks mode custom_query true timestamp t0 t1).display = .failure e)
    ∧ (∀ resp, agent.run (composeQuery mode stocks custom_query) = .ok resp →
      (analysisSection { agent := some agent, analysis_history := history }
          stocks mode custom_query true timestamp t0 t1).state.analysis_history
        = history ++ [{ timestamp := timestamp
                        stocks := stocks
                        query := composeQuery mode stocks custom_query
                        response := resp.content
                        duration := roundDisp 2 (t1 - t0) }]) := by
  have hne : stocks.isEmpty = false := by
    cases stocks with
    | nil => exact absurd rfl hs
    | cons a t => rfl
  constructor
  · intro e he
    refine ⟨?_, ?_⟩ <;> simp [analysisSection, hne, hs, he]
  · intro resp hresp
    simp [analysisSection, hne, hs, hresp]

/-- C2 witness: with a raising agent the history stays empty, with a
succeeding agent exactly the expected record is appended. -/
theorem analysis_run_atomic_witness :
    (analysisSection { agent := some errAgentEx, analysis_history := [] }
        ["AAPL"] .quickComparison "" true "t" 0 1).state.analysis_history = []
    ∧ (analysisSection { agent := some okAgentEx, analysis_history := [] }
        ["AAPL"] .quickComparison "" true "t" 0 1).state.analysis_history
      = [{ timestamp := "t"
           stocks := ["AAPL"]
           query := composeQuery .quickComparison ["AAPL"] ""
           response := "analysis text"
           duration := 1 }] := by
  constructor
  · exact ((analysis_run_atomic errAgentEx [] ["AAPL"] .quickComparison "" "t"
      0 1 (by decide)).1 "quota exceeded" rfl).1
  · have h := (analysis_run_atomic okAgentEx [] ["AAPL"] .quickComparison "" "t"
      0 1 (by decide)).2 { content := "analysis text" } rfl
    rw [h, show (1 : ℚ) - 0 = 1 by norm_num,
        show roundDisp 2 (1 : ℚ) = 1 by simpa using roundDisp_int 2 1]
    rfl

/-- C3 counterexample: in Custom Query mode with an empty free-text
query the analysis still runs — the agent is invoked with the prompt
ending in the empty free text, results are displayed, and one history
record is appended, contradicting "no analysis runs". -/
theorem custom_query_empty_still_runs :
    customEmptyRunEx.invoked = some "Analyze AAPL stocks: "
    ∧ customEmptyRunEx.display = .results "analysis text" 1
    ∧ customEmptyRunEx.state.analysis_history.length = 1 := by
  refine ⟨rfl, ?_, rfl⟩
  show RunDisplay.results "analysis text" (roundDisp 2 (1 - 0))
    = RunDisplay.results "analysis text" 1
  rw [show (1 : ℚ) - 0 = 1 by norm_num,
      show roundDisp 2 (1 : ℚ) = 1 by simpa using roundDisp_int 2 1]

/-- C3 amended: in Custom Query mode the composed prompt embeds the
free text verbatim after the comma-joined ticker list, and the agent is
invoked with that prompt whenever the gate passes — also when the free
text is empty (the run is not suppressed). -/
theorem custom_query_verbatim (stocks : List String)
    (custom_query : String) (agent : AgentHandle)
    (history : List AnalysisRecord) (timestamp : String) (t0 t1 : ℚ)
    (hs : stocks ≠ []) :
    composeQuery .customQuery stocks custom_query
      = "Analyze " ++ String.intercalate ", " stocks ++ " stocks: "
        ++ custom_query
    ∧ (analysisSection { agent := some agent, analysis_history := history }
        stocks .customQuery custom_query true timestamp t0 t1).invoked
      = some (composeQuery .customQuery stocks custom_query) := by
  have hne : stocks.isEmpty = false := by
    cases stocks with
    | nil => exact absurd rfl hs
    | cons a t => rfl
  refine ⟨by simp [composeQuery, String.append_assoc], ?_⟩
  cases hr : agent.run (composeQuery .customQuery stocks custom_query) with
  | ok resp => simp [analysisSection, hne, hs, hr]
  | error e => simp [analysisSection, hne, hs, hr]

/-- C3 amended witness: evaluated with both an empty and a non-empty
free-text query. -/
theorem custom_query_verbatim_witness :
    composeQuery .customQuery ["AAPL", "MSFT"] "What are the growth prospects"
      = "Analyze AAPL, MSFT stocks: What are the growth prospects"
    ∧ (analysisSection { agent := some okAgentEx, analysis_history := [] }
        ["AAPL"] .customQuery "" true "t" 0 1).invoked
      = some (composeQuery .customQuery ["AAPL"] "") := by
  constructor
  · rw [(custom_query_verbatim ["AAPL", "MSFT"] "What are the growth prospects"
      okAgentEx [] "t" 0 1 (by decide)).1]
    rfl
  · exact (custom_query_verbatim ["AAPL"] "" okAgentEx [] "t" 0 1 (by decide)).2

/-- C7: the Run Analysis action is gated on both an initialized agent
and a non-empty ticker list.  With no agent only the warning renders,
no button is shown, the agent is not invoked and the history is
unchanged, whatever the press state; with an agent the button is
disabled exactly when the ticker list is empty; and with an empty
ticker list the history is unchanged and no agent call happens. -/
theorem run_analysis_gating (state : SessionState) (stocks : List String)
    (mode : AnalysisMode) (custom_query : String) (pressed : Bool)
    (timestamp : String) (t0 t1 : ℚ) :
    (state.agent = none →
      (analysisSection state stocks mode custom_query pressed timestamp
          t0 t1).state.analysis_history = state.analysis_history
      ∧ (analysisSection state stocks mode custom_query pressed timestamp
          t0 t1).display = .warnNoAgent
      ∧ (analysisSection state stocks mode custom_query pressed timestamp
          t0 t1).buttonShown = false
      ∧ (analysisSection state stocks mode custom_query pressed timestamp
          t0 t1).invoked = none)
    ∧ (∀ a, state.agent = some a →
      ((analysisSection state stocks mode custom_query pressed timestamp
          t0 t1).buttonDisabled = true ↔ stocks = []))
    ∧ (stocks = [] →
      (analysisSection state stocks mode custom_query pressed timestamp
          t0 t1).state.analysis_history = state.analysis_history
      ∧ (analysisSection state stocks mode custom_query pressed timestamp
          t0 t1).invoked = none) := by
  obtain ⟨ag, hist⟩ := state
  cases ag with
  | none =>
    refine ⟨fun _ => ⟨rfl, rfl, rfl, rfl⟩, ?_, fun _ => ⟨rfl, rfl⟩⟩
    intro a ha
    exact absurd ha (by simp)
  | some a =>
    refine ⟨fun h => absurd h (by simp), ?_, ?_⟩
    · intro b _
      cases stocks with
      | nil => simp [analysisSection]
      | cons s t =>
        cases pressed with
        | false => simp [analysisSection]
        | true =>
          cases hr : a.run (composeQuery mode (s :: t) custom_query) with
          | ok resp => simp [analysisSection, hr]
          | error e => simp [analysisSection, hr]
    · intro h
      subst h
      cases pressed with
      | false => exact ⟨rfl, rfl⟩
      | true => exact ⟨rfl, rfl⟩

/-- C7 witness: with no agent a press leaves the empty history empty
and shows the warning; with an agent and an empty ticker list the
button is disabled. -/
theorem run_analysis_gating_witness :
    ((analysisSection { agent := none, analysis_history := [] }
        ["AAPL"] .quickComparison "" true "t" 0 1).state.analysis_history = []
      ∧ (analysisSection { agent := none, analysis_history := [] }
        ["AAPL"] .quickComparison "" true "t" 0 1).display = .warnNoAgent)
    ∧ (analysisSection { agent := some okAgentEx, analysis_history := [] }
        [] .quickComparison "" true "t" 0 1).buttonDisabled = true := by
  constructor
  · have h := (run_analysis_gating { agent := none, analysis_history := [] }
      ["AAPL"] .quickComparison "" true "t" 0 1).1 rfl
    exact ⟨h.1, h.2.1⟩
  · exact ((run_analysis_gating { agent := some okAgentEx, analysis_history := [] }
      [] .quickComparison "" true "t" 0 1).2.1 okAgentEx rfl).mpr rfl

/-- C9: pressing Initialize assigns the factory result to the session
unconditionally, so when construction fails (factory returns no
handle) the previously stored handle — whatever it was — is destroyed,
and analysis is disabled: the section then only warns and never
touches the history. -/
theorem reinit_overwrites_agent (state : SessionState)
    (factory_result : Option AgentHandle) (stocks : List String)
    (mode : AnalysisMode) (custom_query : String) (pressed : Bool)
    (timestamp : String) (t0 t1 : ℚ) :
    (initializeAgent factory_result state).agent = factory_result
    ∧ (initializeAgent factory_result state).analysis_history
        = state.analysis_history
    ∧ (initializeAgent none state).agent = none
    ∧ (analysisSection (initializeAgent none state) stocks mode custom_query
        pressed timestamp t0 t1).state.analysis_history
      = state.analysis_history
    ∧ (analysisSection (initializeAgent none state) stocks mode custom_query
        pressed timestamp t0 t1).display = .warnNoAgent :=
  ⟨rfl, rfl, rfl, rfl, rfl⟩

/-- C8: a non-empty free-text input fully replaces the multiselect
choice with the comma-split, stripped, uppercased entries (the
multiselect value is irrelevant then), and whenever the resulting
selection is empty the default list is used; an empty free text with a
non-empty multiselect keeps the multiselect. -/
theorem ticker_selection_spec (multiselect : List String)
    (custom_stocks : String) :
    (custom_stocks ≠ "" →
      select_tickers multiselect custom_stocks
        = (if ((pySplitComma custom_stocks).map (fun s => pyUpper (pyStrip s))) = []
           then default_stocks
           else (pySplitComma custom_stocks).map (fun s => pyUpper (pyStrip s)))
      ∧ ∀ other : List String,
          select_tickers multiselect custom_stocks
            = select_tickers other custom_stocks)
    ∧ (custom_stocks = "" → multiselect = [] →
        select_tickers multiselect custom_stocks = default_stocks)
    ∧ (custom_stocks = "" → multiselect ≠ [] →
        select_tickers multiselect custom_stocks = multiselect) := by
  refine ⟨?_, ?_, ?_⟩
  · intro h
    exact ⟨by simp [select_tickers, h], fun other => by simp [select_tickers, h]⟩
  · intro h1 h2
    simp [select_tickers, h1, h2]
  · intro h1 h2
    simp [select_tickers, h1, h2]

/-- C8 witness: the free text " aapl,msft " yields [AAPL, MSFT]
whatever the multiselect holds, and empty inputs fall back to the
default list. -/
theorem ticker_selection_spec_witness :
    select_tickers ["JPM"] " aapl,msft " = ["AAPL", "MSFT"]
    ∧ select_tickers [] "" = default_stocks := by
  constructor
  · rw [((ticker_selection_spec ["JPM"] " aapl,msft ").1 (by decide)).1]
    decide
  · exact (ticker_selection_spec [] "").2.1 rfl rfl

end FinAdviser
